import Mathlib

/-!
Verification of the convention-based chaincode invocation router described by
the tutorial repository (multiple_asset_contract sample and the simple-asset
tutorial revisions).

The handlers and hooks (`getAsset`, `handleUnknown`, `SimpleAsset.Create`,
`SimpleAsset.Update`, `SimpleAsset.Read`, `ComplexAsset.Create`,
`ComplexAsset.UpdateOwner`, `ComplexAsset.UpdateValue`, `ComplexAsset.Read`,
`CustomTransactionContext.PutComplexAsset`) are embedded from
`src/samples/multiple_asset_contract/multi-asset.go`; the alternate tutorial
revision of `Read` with a length guard is embedded from
`src/unnamed/part_003`.  The router itself (signature validation, argument
marshalling, namespace dispatch, lifecycle execution, result encoding) lives
in the external `contractapi` package, which is not part of this repository's
sources; those parts are modelled from the spec and are marked as such.
-/

/-- Byte strings held in the world state and in the context call-data slot.
Go code either stores raw string bytes (`[]byte(value)`, arbitrary user
input) or the `json.Marshal` encoding of a `ComplexAsset` (owner and value
fields).  The two are kept as separate constructors: `caJSON o v` stands
for the (properly escaped) Marshal output of the asset `⟨o, v⟩`, which
`json.Unmarshal` always accepts back with those fields, while `raw s` is an
arbitrary byte string, which `json.Unmarshal` accepts exactly when it is
valid JSON for the struct — decided below by `parseTopFields`, a model of
Go's `encoding/json` decoding into this struct. -/
inductive Bytes where
  | raw : String → Bytes
  | caJSON : String → Int → Bytes
deriving DecidableEq, Repr

/-- Go's `json.Marshal` output for a `ComplexAsset` with the given owner and
value (fields tagged `json:"owner"` and `json:"value"`; owners in the sample
contain no characters needing JSON escaping). -/
def caJSONStr (owner : String) (value : Int) : String :=
  "\x7b\"owner\":\"" ++ owner ++ "\",\"value\":" ++ toString value ++ "\x7d"

/-- Conversion of stored bytes to a Go string (`string(existing)`). -/
def Bytes.toStr : Bytes → String
  | .raw s => s
  | .caJSON o v => caJSONStr o v

/-- Fields of the Go `ComplexAsset` struct that are serialised to the world
state (the embedded `contractapi.Contract` carries no data). -/
structure ComplexAssetData where
  owner : String
  value : Int
deriving DecidableEq, Repr

/-- Go `json.Marshal` of a `ComplexAsset`; it cannot fail on this struct. -/
def marshalCA (a : ComplexAssetData) : Bytes :=
  Bytes.caJSON a.owner a.value

/-- Whitespace accepted by the JSON grammar. -/
def jWs (c : Char) : Bool :=
  c == ' ' || c == '\t' || c == '\n' || c == '\r'

/-- Drops leading JSON whitespace. -/
def skipWs : List Char → List Char
  | c :: rest => if jWs c then skipWs rest else c :: rest
  | [] => []

/-- Hexadecimal digit test for `\u` escapes. -/
def isHexDigit (c : Char) : Bool :=
  c.isDigit || ('a' ≤ c && c ≤ 'f') || ('A' ≤ c && c ≤ 'F')

/-- Value of a hexadecimal digit. -/
def hexVal (c : Char) : Nat :=
  if c.isDigit then c.toNat - 48
  else if 'a' ≤ c then c.toNat - 87
  else c.toNat - 55

/-- Scans a JSON string literal after its opening quote, decoding the
standard escape sequences.  A `\u` escape decodes to its code point, with
an unpaired surrogate replaced by U+FFFD as Go does (surrogate pairs are
not combined; this affects only the decoded text, never success).
Unescaped control characters and a missing closing quote are syntax
errors. -/
def scanStringLit (acc : List Char) : List Char → Option (String × List Char)
  | '"' :: rest => some (⟨acc.reverse⟩, rest)
  | '\\' :: 'u' :: h1 :: h2 :: h3 :: h4 :: rest =>
    if isHexDigit h1 && isHexDigit h2 && isHexDigit h3 && isHexDigit h4 then
      let n := ((hexVal h1 * 16 + hexVal h2) * 16 + hexVal h3) * 16 + hexVal h4
      let c := if 0xD800 ≤ n && n ≤ 0xDFFF then Char.ofNat 0xFFFD else Char.ofNat n
      scanStringLit (c :: acc) rest
    else none
  | '\\' :: e :: rest =>
    match e with
    | '"' => scanStringLit ('"' :: acc) rest
    | '\\' => scanStringLit ('\\' :: acc) rest
    | '/' => scanStringLit ('/' :: acc) rest
    | 'b' => scanStringLit (Char.ofNat 8 :: acc) rest
    | 'f' => scanStringLit (Char.ofNat 12 :: acc) rest
    | 'n' => scanStringLit ('\n' :: acc) rest
    | 'r' => scanStringLit ('\r' :: acc) rest
    | 't' => scanStringLit ('\t' :: acc) rest
    | _ => none
  | c :: rest =>
    if c.toNat < 32 then none else scanStringLit (c :: acc) rest
  | [] => none

/-- Numeric value of a digit list. -/
def digitsToNat (ds : List Char) : Nat :=
  ds.foldl (fun a c => a * 10 + (c.toNat - 48)) 0

/-- Scans an optional JSON fraction part; returns whether one was present. -/
def scanFrac : List Char → Option (Bool × List Char)
  | '.' :: r =>
    let p := r.span (fun x => x.isDigit)
    if p.1.isEmpty then none else some (true, p.2)
  | s => some (false, s)

/-- Scans an optional JSON exponent part; returns whether one was present. -/
def scanExp : List Char → Option (Bool × List Char)
  | 'e' :: r =>
    let r2 := match r with | '+' :: t => t | '-' :: t => t | t => t
    let p := r2.span (fun x => x.isDigit)
    if p.1.isEmpty then none else some (true, p.2)
  | 'E' :: r =>
    let r2 := match r with | '+' :: t => t | '-' :: t => t | t => t
    let p := r2.span (fun x => x.isDigit)
    if p.1.isEmpty then none else some (true, p.2)
  | s => some (false, s)

/-- Scans a JSON number (optional minus, integer part without leading
zeros, optional fraction and exponent).  The result carries `some i` when
the literal has plain integer syntax and fits a signed 64-bit int — the
condition under which Go's `encoding/json` can decode it into the struct's
`int` field (it runs `strconv.ParseInt` on the literal) — and `none` for a
syntactically valid number that any other field position would still
accept. -/
def scanNumber (s : List Char) : Option (Option Int × List Char) :=
  let p0 : Bool × List Char := match s with | '-' :: r => (true, r) | _ => (false, s)
  let neg := p0.1
  let p := p0.2.span (fun x => x.isDigit)
  if p.1.isEmpty then none
  else if p.1.length > 1 && p.1.head? == some '0' then none
  else
    match scanFrac p.2 with
    | none => none
    | some (hasFrac, s3) =>
      match scanExp s3 with
      | none => none
      | some (hasExp, s4) =>
        let asInt : Option Int :=
          if hasFrac || hasExp then none
          else
            let v : Int := if neg then -(digitsToNat p.1 : Int) else (digitsToNat p.1 : Int)
            if -(2 ^ 63) ≤ v ∧ v ≤ 2 ^ 63 - 1 then some v else none
        some (asInt, s4)

/-- Shape of a decoded JSON value, as far as decoding into the
`ComplexAsset` struct needs it: strings keep their text, numbers keep
their int64 value when they have one, `null` is distinguished (Go decodes
a null member into a field as a no-op without error), and everything else
(objects, arrays, booleans) only validates. -/
inductive JKind where
  | jstr : String → JKind
  | jnum : Option Int → JKind
  | jnull
  | jother
deriving DecidableEq, Repr

mutual

/-- Parses one JSON value.  The `Nat` argument is recursion fuel: every
recursive call strictly consumes input before descending, so any fuel
larger than the input length never runs out on valid input. -/
def parseVal : Nat → List Char → Option (JKind × List Char)
  | 0, _ => none
  | fuel + 1, s =>
    match skipWs s with
    | '"' :: r => (scanStringLit [] r).map (fun p => (JKind.jstr p.1, p.2))
    | '{' :: r => (parseMembers fuel r).map (fun p => (JKind.jother, p.2))
    | '[' :: r => (parseElems fuel r).map (fun rest => (JKind.jother, rest))
    | 't' :: 'r' :: 'u' :: 'e' :: r => some (JKind.jother, r)
    | 'f' :: 'a' :: 'l' :: 's' :: 'e' :: r => some (JKind.jother, r)
    | 'n' :: 'u' :: 'l' :: 'l' :: r => some (JKind.jnull, r)
    | s2 => (scanNumber s2).map (fun p => (JKind.jnum p.1, p.2))

/-- Parses the members of a JSON object after its opening brace, returning
them in source order. -/
def parseMembers : Nat → List Char → Option (List (String × JKind) × List Char)
  | 0, _ => none
  | fuel + 1, s =>
    match skipWs s with
    | '}' :: r => some ([], r)
    | s2 => parseMemberSeq fuel s2

/-- Parses a non-empty comma-separated member sequence up to the closing
brace. -/
def parseMemberSeq : Nat → List Char → Option (List (String × JKind) × List Char)
  | 0, _ => none
  | fuel + 1, s =>
    match skipWs s with
    | '"' :: r =>
      match scanStringLit [] r with
      | none => none
      | some (k, r2) =>
        match skipWs r2 with
        | ':' :: r3 =>
          match parseVal fuel r3 with
          | none => none
          | some (v, r4) =>
            match skipWs r4 with
            | ',' :: r5 => (parseMemberSeq fuel r5).map (fun p => ((k, v) :: p.1, p.2))
            | '}' :: r5 => some ([(k, v)], r5)
            | _ => none
        | _ => none
    | _ => none

/-- Parses the elements of a JSON array after its opening bracket. -/
def parseElems : Nat → List Char → Option (List Char)
  | 0, _ => none
  | fuel + 1, s =>
    match skipWs s with
    | ']' :: r => some r
    | s2 => parseElemSeq fuel s2

/-- Parses a non-empty comma-separated element sequence up to the closing
bracket. -/
def parseElemSeq : Nat → List Char → Option (List Char)
  | 0, _ => none
  | fuel + 1, s =>
    match parseVal fuel s with
    | none => none
    | some (_, r) =>
      match skipWs r with
      | ',' :: r2 => parseElemSeq fuel r2
      | ']' :: r2 => some r2
      | _ => none

end

/-- ASCII lower-casing of one character, for Go's case-insensitive field
matching. -/
def asciiLower (c : Char) : Char :=
  if 'A' ≤ c && c ≤ 'Z' then Char.ofNat (c.toNat + 32) else c

/-- ASCII lower-casing of a key (the `owner` and `value` tags are ASCII, so
Unicode case folding cannot produce further matches). -/
def keyFold (s : String) : String :=
  ⟨s.toList.map asciiLower⟩

/-- Applies one decoded object member to the accumulated (owner?, value?)
fields, the way Go's `encoding/json` decodes members in source order into
this struct: keys match the `owner` and `value` tags case-insensitively,
later occurrences overwrite earlier ones, unknown keys are ignored, and a
matched key whose value has the wrong type (a non-string owner, or a value
that is not an int64-representable plain integer literal) is a decode
error. -/
def jsonFieldStep (acc : Option (Option String × Option Int))
    (kv : String × JKind) : Option (Option String × Option Int) :=
  match acc with
  | none => none
  | some (o, v) =>
    if keyFold kv.1 == "owner" then
      match kv.2 with
      | .jstr s => some (some s, v)
      | .jnull => some (o, v)
      | _ => none
    else if keyFold kv.1 == "value" then
      match kv.2 with
      | .jnum (some i) => some (o, some i)
      | .jnull => some (o, v)
      | _ => none
    else some (o, v)

/-- Go `json.Unmarshal` of a byte string into a `ComplexAsset`, reduced to
the fields it may set: the input must be a single JSON object (or `null`,
which Go accepts and decodes into nothing) with nothing but whitespace
around it; returns which of the two struct fields the decode sets.  Fuel
`s.length + 4` cannot run out: every parsing step consumes input before
recursing. -/
def parseTopFields (s : String) : Option (Option String × Option Int) :=
  match skipWs s.toList with
  | 'n' :: 'u' :: 'l' :: 'l' :: r =>
    if (skipWs r).isEmpty then some (none, none) else none
  | '{' :: r =>
    match parseMembers (s.length + 4) r with
    | none => none
    | some (pairs, rest) =>
      if (skipWs rest).isEmpty then pairs.foldl jsonFieldStep (some (none, none))
      else none
  | _ => none

/-- Fields that `json.Unmarshal` would set when decoding stored bytes into
a `ComplexAsset`: Marshal output always round-trips to its own two fields;
raw bytes go through the JSON decoder model. -/
def unmarshalCAFields : Bytes → Option (Option String × Option Int)
  | .caJSON o v => some (some o, some v)
  | .raw s => parseTopFields s

/-- Go `json.Unmarshal(existing, ca)`: fields present in the JSON overwrite
the receiver's fields, fields absent from the JSON keep the receiver's
prior values (Go decodes in place; with `"\x7b\x7d"` or `"null"` the call
succeeds and changes nothing). -/
def unmarshalCAInto (ca0 : ComplexAssetData) (b : Bytes) :
    Option ComplexAssetData :=
  (unmarshalCAFields b).map (fun p => ⟨p.1.getD ca0.owner, p.2.getD ca0.value⟩)

/-- Go's wrap-around semantics of signed 64-bit `int` arithmetic: the
mathematical result reduced into `[-2^63, 2^63)`. -/
def wrap64 (x : Int) : Int :=
  (x + 2 ^ 63) % 2 ^ 64 - 2 ^ 63

/-- The chaincode stub's view of the world state.  `live` models whether
interaction with the world state succeeds: the Go `GetState`/`PutState`
calls return an error exactly when the peer connection fails, which the
handlers surface as "Unable to interact with world state". -/
structure Stub where
  live : Bool
  state : List (String × Bytes)
deriving DecidableEq, Repr

/-- Association-list update used by `putState`. -/
def upsert (l : List (String × Bytes)) (k : String) (v : Bytes) :
    List (String × Bytes) :=
  match l with
  | [] => [(k, v)]
  | (k0, v0) :: rest =>
    if k0 == k then (k, v) :: rest else (k0, v0) :: upsert rest k v

/-- Value currently stored under a key, `none` when absent (Go `GetState`
returns a nil slice for an absent key). -/
def lookupState (st : Stub) (k : String) : Option Bytes :=
  (st.state.find? (fun p => p.1 == k)).map (fun p => p.2)

/-- Stub `GetState`: errors when the world state is unreachable, otherwise
returns the stored bytes (or nil/none when the key is absent). -/
def getState (st : Stub) (k : String) : Except String (Option Bytes) :=
  if st.live then .ok (lookupState st k) else .error "world state failure"

/-- Stub `PutState`: errors when the world state is unreachable, otherwise
stores the bytes under the key. -/
def putState (st : Stub) (k : String) (v : Bytes) : Except String Stub :=
  if st.live then .ok { st with state := upsert st.state k v }
  else .error "world state failure"

/-- The `CustomTransactionContext` of multi-asset.go: the embedded
`contractapi.TransactionContext` gives stub access, and `callData` is the
extension slot the before-hook fills (`nil` is modelled as `none`). -/
structure Ctx where
  stub : Stub
  callData : Option Bytes

/-- getAsset from multi-asset.go: reads the world state at the passed ID and
stores the result (possibly nil) in the context's call-data slot. -/
def getAsset (ctx : Ctx) (assetID : String) : Except String Ctx :=
  match getState ctx.stub assetID with
  | .error _ => .error "Unable to interact with world state"
  | .ok existing => .ok { ctx with callData := existing }

/-- Go's `%v` formatting of a `[]string` slice. -/
def goFmtStringSlice (args : List String) : String :=
  "[" ++ String.intercalate " " args ++ "]"

/-- handleUnknown from multi-asset.go: always returns a non-nil error naming
the raw argument slice. -/
def handleUnknown (args : List String) : Option String :=
  some ("Unknown function name passed with args " ++ goFmtStringSlice args)

/-- SimpleAsset.Create from multi-asset.go.  Handlers returning only a Go
`error` are modelled as returning the possibly-updated stub paired with the
optional error; the stub is unchanged whenever no `PutState` succeeded. -/
def SimpleAsset.Create (ctx : Ctx) (assetID : String) : Stub × Option String :=
  match ctx.callData with
  | some _ =>
    (ctx.stub, some ("Cannot create asset. Asset with id " ++ assetID ++ " already exists"))
  | none =>
    match putState ctx.stub assetID (Bytes.raw "Initialised") with
    | .error _ => (ctx.stub, some "Unable to interact with world state")
    | .ok st => (st, none)

/-- SimpleAsset.Update from multi-asset.go. -/
def SimpleAsset.Update (ctx : Ctx) (assetID : String) (value : String) :
    Stub × Option String :=
  match ctx.callData with
  | none =>
    (ctx.stub, some ("Cannot update asset. Asset with id " ++ assetID ++ " does not exist"))
  | some _ =>
    match putState ctx.stub assetID (Bytes.raw value) with
    | .error _ => (ctx.stub, some "Unable to interact with world state")
    | .ok st => (st, none)

/-- SimpleAsset.Read from multi-asset.go: the absent-value guard is the nil
check `existing == nil`. -/
def SimpleAsset.Read (ctx : Ctx) (assetID : String) : String × Option String :=
  match ctx.callData with
  | none =>
    ("", some ("Cannot read asset. Asset with id " ++ assetID ++ " does not exist"))
  | some existing => (existing.toStr, none)

/-- CustomTransactionContext.PutComplexAsset from multi-asset.go: marshals
the asset to JSON (which cannot fail for this struct, so the
"Error converting asset to JSON" branch is dead) and writes it. -/
def PutComplexAsset (st : Stub) (assetID : String) (a : ComplexAssetData) :
    Except String Stub :=
  match putState st assetID (marshalCA a) with
  | .error _ => .error "Unable to interact with world state"
  | .ok st2 => .ok st2

/-- ComplexAsset.Create from multi-asset.go: the receiver's fields are fully
overwritten (Owner := "Regulator", Value := 0) before being stored. -/
def ComplexAsset.Create (ctx : Ctx) (assetID : String) : Stub × Option String :=
  match ctx.callData with
  | some _ =>
    (ctx.stub, some ("Cannot create asset. Asset with id " ++ assetID ++ " already exists"))
  | none =>
    match PutComplexAsset ctx.stub assetID ⟨"Regulator", 0⟩ with
    | .error e => (ctx.stub, some e)
    | .ok st => (st, none)

/-- ComplexAsset.UpdateOwner from multi-asset.go.  `ca0` is the receiver
the Go method runs on: `json.Unmarshal(existing, ca)` overwrites only the
fields present in the JSON, so absent fields keep the receiver's values. -/
def ComplexAsset.UpdateOwner (ca0 : ComplexAssetData) (ctx : Ctx)
    (assetID : String) (newOwner : String) : Stub × Option String :=
  match ctx.callData with
  | none =>
    (ctx.stub, some ("Cannot update asset. Asset with id " ++ assetID ++ " does not exist"))
  | some existing =>
    match unmarshalCAInto ca0 existing with
    | none => (ctx.stub, some ("Asset with id " ++ assetID ++ " is not a ComplexAsset"))
    | some a =>
      match PutComplexAsset ctx.stub assetID { a with owner := newOwner } with
      | .error e => (ctx.stub, some e)
      | .ok st => (st, none)

/-- Go's `strconv.Atoi` (64-bit platform): an optional sign followed by at
least one decimal digit, erroring when the value does not fit a signed
64-bit int (Go also returns ErrRange together with a clamped value, but
the caller only tests the error). -/
def atoi (s : String) : Option Int :=
  let core : List Char → Option Nat := fun ds =>
    if ds.isEmpty then none
    else if ds.all (fun c => c.isDigit) then some (digitsToNat ds)
    else none
  let ranged : Int → Option Int := fun v =>
    if -(2 ^ 63) ≤ v ∧ v ≤ 2 ^ 63 - 1 then some v else none
  match s.toList with
  | '+' :: rest => (core rest).bind (fun n => ranged (n : Int))
  | '-' :: rest => (core rest).bind (fun n => ranged (-(n : Int)))
  | ds => (core ds).bind (fun n => ranged (n : Int))

/-- ComplexAsset.UpdateValue from multi-asset.go: parses the additional
value, requires the call data to be present and to unmarshal as a
ComplexAsset over the receiver `ca0`, then stores the asset with the value
field increased — `ca.Value += additionalValueInt` is Go machine-int
addition, which wraps at 64 bits (`wrap64`). -/
def ComplexAsset.UpdateValue (ca0 : ComplexAssetData) (ctx : Ctx)
    (assetID : String) (additionalValue : String) : Stub × Option String :=
  match atoi additionalValue with
  | none =>
    (ctx.stub, some ("Cannot use passed value " ++ additionalValue ++ " as value. It is not an integer"))
  | some n =>
    match ctx.callData with
    | none =>
      (ctx.stub, some ("Cannot update asset. Asset with id " ++ assetID ++ " does not exist"))
    | some existing =>
      match unmarshalCAInto ca0 existing with
      | none => (ctx.stub, some ("Asset with id " ++ assetID ++ " is not a ComplexAsset"))
      | some a =>
        match PutComplexAsset ctx.stub assetID { a with value := wrap64 (a.value + n) } with
        | .error e => (ctx.stub, some e)
        | .ok st => (st, none)

/-- ComplexAsset.Read from multi-asset.go: unmarshals into the receiver
only to check the bytes decode, then returns the raw JSON text. -/
def ComplexAsset.Read (ca0 : ComplexAssetData) (ctx : Ctx) (assetID : String) :
    String × Option String :=
  match ctx.callData with
  | none =>
    ("", some ("Cannot read asset. Asset with id " ++ assetID ++ " does not exist"))
  | some existing =>
    match unmarshalCAInto ca0 existing with
    | none => ("", some ("Asset with id " ++ assetID ++ " is not a ComplexAsset"))
    | some _ => (existing.toStr, none)

/-- Go `len` of a possibly-nil byte slice (`len(nil) = 0`).  The model
counts characters where Go counts bytes; both are zero exactly when the
slice is empty, which is all the length guard inspects. -/
def goSliceLen : Option Bytes → Nat
  | none => 0
  | some b => b.toStr.length

/-- Go `string` conversion of a possibly-nil byte slice. -/
def goSliceStr : Option Bytes → String
  | none => ""
  | some b => b.toStr

/-- SimpleAsset.Read from src/unnamed/part_003 (the `GetCallData` tutorial
revision): the absent-value guard is the length check `len(existing) == 0`
rather than the nil check.  It is written as a function of the call-data
value the before-hook stored. -/
def ReadLenGuard (callData : Option Bytes) (assetID : String) :
    String × Option String :=
  if goSliceLen callData == 0 then
    ("", some ("Cannot read asset. Asset with id " ++ assetID ++ " does not exist"))
  else
    (goSliceStr callData, none)

/-- Modelled from the spec: parameter kinds a handler or hook may declare
(context-type, plain string, string-sequence).  The signature validator of
the contractapi router is not part of this repository's sources. -/
inductive PKind where
  | ctxP
  | strP
  | strListP
deriving DecidableEq, Repr

/-- Modelled from the spec: return kinds a handler may declare. -/
inductive RKind where
  | strR
  | errR
deriving DecidableEq, Repr

/-- Modelled from the spec: a marshalled positional argument (the context is
supplied separately). -/
inductive ArgV where
  | s : String → ArgV
  | ss : List String → ArgV
deriving DecidableEq, Repr

/-- Modelled from the spec: what a handler returned — an optional string
value (absent when the handler declares no string return) and an optional
error. -/
structure RetVal where
  str : Option String
  err : Option String
deriving DecidableEq, Repr

/-- Modelled from the spec: the uniform invocation response relayed to the
peer. -/
structure Response where
  payload : String
  err : Option String
deriving DecidableEq, Repr

/-- Modelled from the spec (§4.6 Result Encoder): a non-nil error wins over
any string value; a nil error yields the string (or an empty payload when no
string was declared). -/
def encodeResult (r : RetVal) : Response :=
  match r.err with
  | some e => ⟨"", some e⟩
  | none => ⟨r.str.getD "", none⟩

/-- Modelled from the spec: a before/after hook — its declared shape and its
behaviour on the context plus its matched prefix of string arguments. -/
structure Hook where
  pshape : List PKind
  rshape : List RKind
  run : Ctx → List String → Except String Ctx

/-- Number of plain string arguments a hook consumes. -/
def hookArity (h : Hook) : Nat :=
  h.pshape.count .strP

/-- The registered before-hook of both sample groups: getAsset, declared as
`(ctx, assetID string) error`. -/
def getAssetHook : Hook :=
  ⟨[.ctxP, .strP], [.errR], fun c as => getAsset c (as.headD "")⟩

/-- Modelled from the spec: the unknown-function hook, which may declare
either the context alone or the raw string-sequence alone. -/
structure UHook where
  pshape : List PKind
  run : List String → RetVal

/-- The registered unknown-function hook of both sample groups:
handleUnknown, declared as `(args []string) error`. -/
def handleUnknownHook : UHook :=
  ⟨[.strListP], fun as => ⟨none, handleUnknown as⟩⟩

/-- Modelled from the spec: a Handler Descriptor — qualified by the owning
group's namespace, with its declared parameter and return shapes and its
behaviour on marshalled arguments (returning the possibly-updated stub and
the returned values). -/
structure Handler where
  name : String
  pshape : List PKind
  rshape : List RKind
  run : Ctx → List ArgV → Stub × RetVal

/-- Modelled from the spec: a Contract Group — one namespace, its handlers,
and optional before/after/unknown hooks.  The samples register no
after-hook. -/
structure ContractGroup where
  ns : String
  handlers : List Handler
  before : Option Hook
  after : Option Hook
  unknown : Option UHook

/-- Modelled from the spec (§4.2 Argument Marshaller): a context parameter
is injected separately; each plain string parameter consumes one input
string, and a string-sequence parameter (last by validation) collects all
remaining inputs in order; arity mismatches are ArgumentErrors. -/
def marshalArgs : List PKind → List String → Except String (List ArgV)
  | [], [] => .ok []
  | [], _ :: _ => .error "ArgumentError: too many arguments"
  | .ctxP :: ps, as => marshalArgs ps as
  | .strP :: _, [] => .error "ArgumentError: too few arguments"
  | .strP :: ps, a :: rest => (marshalArgs ps rest).map (fun t => ArgV.s a :: t)
  | .strListP :: _, rest => .ok [ArgV.ss rest]

/-- Modelled from the spec (§4.1): legality of the parameter positions after
the first — no context-type parameter may appear, and a string-sequence
parameter may only close the list. -/
def validParamTail : List PKind → Bool
  | [] => true
  | [.strListP] => true
  | .strP :: rest => validParamTail rest
  | _ => false

/-- Modelled from the spec (§4.1 Signature Validator): at most one
context-type parameter and only first; at most one string-sequence
parameter and only last; any number of plain strings between. -/
def validParams : List PKind → Bool
  | .ctxP :: rest => validParamTail rest
  | ps => validParamTail ps

/-- Modelled from the spec (§4.1): zero, one or two return values, at most
one string and one error, error last when both are present. -/
def validReturns : List RKind → Bool
  | [] => true
  | [.strR] => true
  | [.errR] => true
  | [.strR, .errR] => true
  | _ => false

/-- Modelled from the spec: a handler shape is registrable when both its
parameter and return shapes are legal. -/
def validHandlerShape (ps : List PKind) (rs : List RKind) : Bool :=
  validParams ps && validReturns rs

/-- Modelled from the spec (§4.1): the unknown-function hook takes either
the context alone or a string-sequence alone. -/
def validUnknownShape (ps : List PKind) : Bool :=
  ps == [PKind.ctxP] || ps == [PKind.strListP]

/-- Modelled from the spec (§4.1): a before/after hook must itself be a
legal handler shape and its parameter list must be a prefix of every
handler's parameter list in its group. -/
def validGroupHook (g : ContractGroup) (h : Hook) : Bool :=
  validHandlerShape h.pshape h.rshape &&
    g.handlers.all (fun hd => h.pshape.isPrefixOf hd.pshape)

/-- Modelled from the spec: registration-time checks local to one group. -/
def groupOk (g : ContractGroup) : Bool :=
  g.handlers.all (fun h => validHandlerShape h.pshape h.rshape) &&
    (match g.before with | none => true | some h => validGroupHook g h) &&
    (match g.after with | none => true | some h => validGroupHook g h) &&
    (match g.unknown with | none => true | some u => validUnknownShape u.pshape)

/-- Pairwise distinctness of the registered namespaces (this also enforces
that at most one group keeps the default namespace). -/
def distinctNS : List String → Bool
  | [] => true
  | n :: rest => !rest.contains n && distinctNS rest

/-- Modelled from the spec (§4.5, §7): `contractapi.CreateNewChaincode`
validates all groups fail-fast at start-up; serving never begins after a
RegistrationError. -/
def registerChaincode (gs : List ContractGroup) : Except String Unit :=
  if distinctNS (gs.map (fun g => g.ns)) then
    if gs.all groupOk then .ok ()
    else .error "RegistrationError: illegal handler or hook shape"
  else .error "RegistrationError: duplicate namespace"

/-- Trace of the lifecycle stages one invocation actually ran, recording the
arguments each stage received (and, for the handler, the call-data value
visible in its context). -/
inductive TEvent where
  | beforeRan : List String → TEvent
  | handlerRan : String → String → Option Bytes → TEvent
  | unknownRan : List String → TEvent
  | afterRan : List String → TEvent
deriving DecidableEq, Repr

/-- Modelled from the spec (§4.4 Lifecycle Executor): the DISPATCH stage
(or the UNKNOWN branch, which skips AFTER) followed by the AFTER and DONE
stages, given the context left by BEFORE and the trace so far. -/
def dispatchStage (g : ContractGroup) (c1 : Ctx) (fn : String)
    (args : List String) (tr1 : List TEvent) : Response × List TEvent :=
  match g.handlers.find? (fun h => h.name == fn) with
  | none =>
    match g.unknown with
    | some u => (encodeResult (u.run args), tr1 ++ [.unknownRan args])
    | none => (⟨"", some ("Function " ++ fn ++ " not found")⟩, tr1)
  | some h =>
    match marshalArgs h.pshape args with
    | .error e => (⟨"", some e⟩, tr1)
    | .ok margs =>
      let out := h.run c1 margs
      let c2 : Ctx := ⟨out.1, c1.callData⟩
      let tr2 := tr1 ++ [.handlerRan g.ns h.name c1.callData]
      match g.after with
      | none => (encodeResult out.2, tr2)
      | some ah =>
        let aargs := args.take (hookArity ah)
        match ah.run c2 aargs with
        | .error e => (⟨"", some e⟩, tr2 ++ [.afterRan aargs])
        | .ok _ => (encodeResult out.2, tr2 ++ [.afterRan aargs])

/-- Modelled from the spec (§4.4 Lifecycle Executor, §4.5 Invocation Router,
§4.3 Context Factory): resolve the namespace to a group, build a fresh
context, run the before-hook on the matched prefix of arguments
(short-circuiting to DONE on its error), then run the DISPATCH/UNKNOWN,
AFTER and DONE stages via `dispatchStage`.  The returned trace records the
stages that ran with the arguments they received. -/
def invoke (gs : List ContractGroup) (stub : Stub) (ns fn : String)
    (args : List String) : Response × List TEvent :=
  match gs.find? (fun g => g.ns == ns) with
  | none => (⟨"", some ("RoutingError: namespace " ++ ns ++ " not found")⟩, [])
  | some g =>
    let ctx0 : Ctx := ⟨stub, none⟩
    match g.before with
    | some h =>
      let hargs := args.take (hookArity h)
      match h.run ctx0 hargs with
      | .error e => (⟨"", some e⟩, [.beforeRan hargs])
      | .ok c1 => dispatchStage g c1 fn args [.beforeRan hargs]
    | none => dispatchStage g ctx0 fn args []

/-- Handler Descriptor for SimpleAsset.Create, shape `(ctx, assetID string) error`. -/
def simpleCreateH : Handler :=
  ⟨"Create", [.ctxP, .strP], [.errR], fun c as =>
    match as with
    | [.s assetID] => ((SimpleAsset.Create c assetID).1, ⟨none, (SimpleAsset.Create c assetID).2⟩)
    | _ => (c.stub, ⟨none, some "ArgumentError: bad marshalled arguments"⟩)⟩

/-- Handler Descriptor for SimpleAsset.Update, shape `(ctx, assetID, value string) error`. -/
def simpleUpdateH : Handler :=
  ⟨"Update", [.ctxP, .strP, .strP], [.errR], fun c as =>
    match as with
    | [.s assetID, .s value] =>
      ((SimpleAsset.Update c assetID value).1, ⟨none, (SimpleAsset.Update c assetID value).2⟩)
    | _ => (c.stub, ⟨none, some "ArgumentError: bad marshalled arguments"⟩)⟩

/-- Handler Descriptor for SimpleAsset.Read, shape `(ctx, assetID string) (string, error)`. -/
def simpleReadH : Handler :=
  ⟨"Read", [.ctxP, .strP], [.strR, .errR], fun c as =>
    match as with
    | [.s assetID] =>
      (c.stub, ⟨some (SimpleAsset.Read c assetID).1, (SimpleAsset.Read c assetID).2⟩)
    | _ => (c.stub, ⟨none, some "ArgumentError: bad marshalled arguments"⟩)⟩

/-- Handler Descriptor for ComplexAsset.Create. -/
def complexCreateH : Handler :=
  ⟨"Create", [.ctxP, .strP], [.errR], fun c as =>
    match as with
    | [.s assetID] => ((ComplexAsset.Create c assetID).1, ⟨none, (ComplexAsset.Create c assetID).2⟩)
    | _ => (c.stub, ⟨none, some "ArgumentError: bad marshalled arguments"⟩)⟩

/-- Handler Descriptor for ComplexAsset.UpdateOwner.  The registered
receiver starts at Go's zero value `⟨"", 0⟩`; the singleton receiver keeps
its fields between invocations in the Go process, which the per-invocation
router model does not track (no claim concerns that residue). -/
def complexUpdateOwnerH : Handler :=
  ⟨"UpdateOwner", [.ctxP, .strP, .strP], [.errR], fun c as =>
    match as with
    | [.s assetID, .s newOwner] =>
      ((ComplexAsset.UpdateOwner ⟨"", 0⟩ c assetID newOwner).1,
        ⟨none, (ComplexAsset.UpdateOwner ⟨"", 0⟩ c assetID newOwner).2⟩)
    | _ => (c.stub, ⟨none, some "ArgumentError: bad marshalled arguments"⟩)⟩

/-- Handler Descriptor for ComplexAsset.UpdateValue, on the zero-value
receiver as for `complexUpdateOwnerH`. -/
def complexUpdateValueH : Handler :=
  ⟨"UpdateValue", [.ctxP, .strP, .strP], [.errR], fun c as =>
    match as with
    | [.s assetID, .s v] =>
      ((ComplexAsset.UpdateValue ⟨"", 0⟩ c assetID v).1,
        ⟨none, (ComplexAsset.UpdateValue ⟨"", 0⟩ c assetID v).2⟩)
    | _ => (c.stub, ⟨none, some "ArgumentError: bad marshalled arguments"⟩)⟩

/-- Handler Descriptor for ComplexAsset.Read, on the zero-value receiver
as for `complexUpdateOwnerH`. -/
def complexReadH : Handler :=
  ⟨"Read", [.ctxP, .strP], [.strR, .errR], fun c as =>
    match as with
    | [.s assetID] =>
      (c.stub, ⟨some (ComplexAsset.Read ⟨"", 0⟩ c assetID).1,
        (ComplexAsset.Read ⟨"", 0⟩ c assetID).2⟩)
    | _ => (c.stub, ⟨none, some "ArgumentError: bad marshalled arguments"⟩)⟩

/-- Namespace the sample's main sets for the simple-asset group. -/
def simpleNS : String := "org.example.assets.simple"

/-- Namespace the sample's main sets for the complex-asset group. -/
def complexNS : String := "org.example.assets.complex"

/-- The simple-asset contract group as configured in multi-asset.go's main:
custom transaction context, getAsset before-hook, handleUnknown
unknown-hook, no after-hook, namespace org.example.assets.simple. -/
def simpleGroup : ContractGroup :=
  ⟨simpleNS, [simpleCreateH, simpleUpdateH, simpleReadH],
    some getAssetHook, none, some handleUnknownHook⟩

/-- The complex-asset contract group as configured in multi-asset.go's main. -/
def complexGroup : ContractGroup :=
  ⟨complexNS, [complexCreateH, complexUpdateOwnerH, complexUpdateValueH, complexReadH],
    some getAssetHook, none, some handleUnknownHook⟩

/-- The two contract groups handed to contractapi.CreateNewChaincode by
multi-asset.go's main. -/
def mainGroups : List ContractGroup := [simpleGroup, complexGroup]

/-- Parameter shape of ComplexAsset.UpdateColour from the tutorial text in
src/unnamed/part_002: `(ctx, assetID string, additionalColours []string)`. -/
def updateColourShape : List PKind := [.ctxP, .strP, .strListP]
/-- C2: registering the sample groups succeeds, and invoking Read with
["ASSET_1"] against a store where ASSET_1 maps to the bytes of "Updated"
yields the response with payload "Updated" and no error. -/
theorem read_round_trip :
    registerChaincode mainGroups = .ok () ∧
    (invoke mainGroups ⟨true, [("ASSET_1", Bytes.raw "Updated")]⟩ simpleNS "Read"
      ["ASSET_1"]).1 = ⟨"Updated", none⟩ :=
  ⟨rfl, rfl⟩

/-- C5: marshalling the argument list ["ASSET_1","red","blue"] for the
UpdateColour shape yields ("ASSET_1", ["red","blue"]). -/
theorem updateColour_marshalling :
    marshalArgs updateColourShape ["ASSET_1", "red", "blue"]
      = .ok [ArgV.s "ASSET_1", ArgV.ss ["red", "blue"]] :=
  rfl

/-- C7: the Result Encoder gives a non-nil error precedence over any string
value (empty payload, the error's message), returns the string as payload
with no error when the error is nil, returns an empty payload and no error
when both are absent, and never emits both a non-empty payload and an
error. -/
theorem result_encoder_spec (r : RetVal) :
    (∀ e, r.err = some e → encodeResult r = ⟨"", some e⟩) ∧
    (r.err = none → ∀ s, r.str = some s → encodeResult r = ⟨s, none⟩) ∧
    (r.err = none → r.str = none → encodeResult r = ⟨"", none⟩) ∧
    ¬((encodeResult r).payload ≠ "" ∧ ((encodeResult r).err).isSome = true) := by
  obtain ⟨s, e⟩ := r
  cases e <;> cases s <;> simp [encodeResult]

theorem result_encoder_spec_witness :
    encodeResult ⟨some "value", some "boom"⟩ = ⟨"", some "boom"⟩ :=
  (result_encoder_spec ⟨some "value", some "boom"⟩).1 "boom" rfl

/-- C1: whenever the resolved contract group's before-hook getAsset returns
a non-nil error, the response is exactly that error and the trace shows only
the before stage: the target handler, the unknown hook and the after-hook
never ran. -/
theorem before_hook_error_short_circuits
    (stub : Stub) (ns fn : String) (args : List String) (g : ContractGroup)
    (e : String)
    (hg : mainGroups.find? (fun g0 => g0.ns == ns) = some g)
    (hb : g.before = some getAssetHook)
    (he : getAssetHook.run ⟨stub, none⟩ (args.take (hookArity getAssetHook)) = .error e) :
    invoke mainGroups stub ns fn args
      = (⟨"", some e⟩, [.beforeRan (args.take (hookArity getAssetHook))]) := by
  simp [invoke, hg, hb, he]

theorem before_hook_error_short_circuits_witness :
    invoke mainGroups ⟨false, []⟩ simpleNS "Read" ["A"]
      = (⟨"", some "Unable to interact with world state"⟩, [.beforeRan ["A"]]) :=
  before_hook_error_short_circuits ⟨false, []⟩ simpleNS "Read" ["A"] simpleGroup
    "Unable to interact with world state" rfl rfl rfl
lemma string_eq_empty_of_length_eq_zero (s : String) (h : s.length = 0) :
    s = "" := by
  cases s with
  | mk data =>
    simp [String.length] at h
    simp [h]

lemma bytes_toStr_length_eq_zero (b : Bytes) (h : b.toStr.length = 0) :
    b = Bytes.raw "" := by
  cases b with
  | raw s =>
    rw [string_eq_empty_of_length_eq_zero s h]
  | caJSON o v =>
    simp only [Bytes.toStr, caJSONStr, String.length_append] at h
    have h1 : ("\x7b\"owner\":\"" : String).length = 10 := rfl
    omega

/-- C9 counterexample: the nil-sentinel Read and the length-guard Read are
not behaviourally equivalent.  A non-nil empty byte slice — which the
before-hook getAsset does hand over when the store maps the key to an empty
value — makes the nil-sentinel revision succeed with an empty payload while
the length-guard revision reports that the asset does not exist. -/
theorem read_nil_vs_length_guard_differ :
    getAsset ⟨⟨true, [("ASSET_1", Bytes.raw "")]⟩, none⟩ "ASSET_1"
      = .ok ⟨⟨true, [("ASSET_1", Bytes.raw "")]⟩, some (Bytes.raw "")⟩ ∧
    SimpleAsset.Read ⟨⟨true, [("ASSET_1", Bytes.raw "")]⟩, some (Bytes.raw "")⟩ "ASSET_1"
      = ("", none) ∧
    ReadLenGuard (some (Bytes.raw "")) "ASSET_1"
      = ("", some "Cannot read asset. Asset with id ASSET_1 does not exist") ∧
    SimpleAsset.Read ⟨⟨true, [("ASSET_1", Bytes.raw "")]⟩, some (Bytes.raw "")⟩ "ASSET_1"
      ≠ ReadLenGuard (some (Bytes.raw "")) "ASSET_1" := by
  refine ⟨rfl, rfl, rfl, ?_⟩
  decide

/-- C9 amended: the two tutorial revisions of SimpleAsset.Read agree on
every call-data value except a non-nil empty byte slice; at nil and at every
non-empty value they return the same (string, error) result. -/
theorem read_nil_vs_length_guard_agree
    (stub : Stub) (cd : Option Bytes) (assetID : String)
    (h : cd ≠ some (Bytes.raw "")) :
    SimpleAsset.Read ⟨stub, cd⟩ assetID = ReadLenGuard cd assetID := by
  cases cd with
  | none => rfl
  | some b =>
    have hb : b ≠ Bytes.raw "" := fun hb0 => h (by rw [hb0])
    have hlen : b.toStr.length ≠ 0 := fun h0 => hb (bytes_toStr_length_eq_zero b h0)
    simp [SimpleAsset.Read, ReadLenGuard, goSliceLen, goSliceStr, hlen]

theorem read_nil_vs_length_guard_agree_witness :
    SimpleAsset.Read ⟨⟨true, []⟩, some (Bytes.raw "Updated")⟩ "ASSET_1"
      = ReadLenGuard (some (Bytes.raw "Updated")) "ASSET_1" :=
  read_nil_vs_length_guard_agree ⟨true, []⟩ (some (Bytes.raw "Updated")) "ASSET_1"
    (by decide)

lemma find_simpleGroup :
    mainGroups.find? (fun g => g.ns == simpleNS) = some simpleGroup := rfl

lemma find_complexGroup :
    mainGroups.find? (fun g => g.ns == complexNS) = some complexGroup := rfl

/-- C4: on an Update invocation that the before-hook completes, the
before-hook received exactly the one-argument prefix [assetID] (not the
trailing value), and the handler ran with the call-data slot holding exactly
the world-state value for assetID — the value getAsset stored during the
same invocation. -/
theorem hook_prefix_and_call_data
    (stub : Stub) (assetID value : String) (hlive : stub.live = true) :
    (invoke mainGroups stub simpleNS "Update" [assetID, value]).2
      = [.beforeRan [assetID],
         .handlerRan simpleNS "Update" (lookupState stub assetID)] := by
  simp [invoke, find_simpleGroup, simpleGroup, dispatchStage, getAssetHook,
    hookArity, getAsset, getState, hlive, marshalArgs, simpleCreateH,
    simpleUpdateH, simpleReadH, Except.map]

theorem hook_prefix_and_call_data_witness :
    (invoke mainGroups ⟨true, [("A", Bytes.raw "x")]⟩ simpleNS "Update"
      ["A", "V"]).2
      = [.beforeRan ["A"],
         .handlerRan simpleNS "Update" (lookupState ⟨true, [("A", Bytes.raw "x")]⟩ "A")] :=
  hook_prefix_and_call_data ⟨true, [("A", Bytes.raw "x")]⟩ "A" "V" rfl

/-- C8 counterexample: an invocation naming an unregistered function does
not always invoke handleUnknown — when the before-hook getAsset fails (an
unreachable world state), the lifecycle short-circuits to DONE with the
before-hook's error and the unknown-function hook never runs. -/
theorem unknown_hook_skipped_on_before_error :
    (invoke mainGroups ⟨false, []⟩ simpleNS "Nonexistent" ["A"]).1
      = ⟨"", some "Unable to interact with world state"⟩ ∧
    TEvent.unknownRan ["A"] ∉ (invoke mainGroups ⟨false, []⟩ simpleNS "Nonexistent" ["A"]).2 ∧
    (invoke mainGroups ⟨false, []⟩ simpleNS "Nonexistent" ["A"]).1.err
      ≠ handleUnknown ["A"] := by
  refine ⟨rfl, ?_, ?_⟩ <;> decide

/-- C8 amended: for every invocation naming a function not registered in the
resolved contract group whose before-hook completed without error, the
registered unknown-function hook handleUnknown is invoked with the raw
argument sequence, its returned error becomes the response, and the
after-hook is skipped; the router is a total function, so it never panics
out of the dispatch. -/
theorem unknown_function_invokes_hook
    (stub : Stub) (ns fn : String) (args : List String) (g : ContractGroup)
    (hg : mainGroups.find? (fun g0 => g0.ns == ns) = some g)
    (hb : g.before = some getAssetHook)
    (hu : g.unknown = some handleUnknownHook)
    (hf : g.handlers.find? (fun h => h.name == fn) = none)
    (hlive : stub.live = true) :
    invoke mainGroups stub ns fn args
      = (⟨"", some ("Unknown function name passed with args " ++ goFmtStringSlice args)⟩,
         [.beforeRan (args.take 1), .unknownRan args]) := by
  simp [invoke, hg, hb, hu, hf, dispatchStage, getAssetHook, hookArity,
    getAsset, getState, hlive, encodeResult, handleUnknownHook, handleUnknown]

theorem unknown_function_invokes_hook_witness :
    invoke mainGroups ⟨true, []⟩ simpleNS "Nonexistent" ["A", "B"]
      = (⟨"", some ("Unknown function name passed with args " ++ goFmtStringSlice ["A", "B"])⟩,
         [.beforeRan ["A"], .unknownRan ["A", "B"]]) :=
  unknown_function_invokes_hook ⟨true, []⟩ simpleNS "Nonexistent" ["A", "B"]
    simpleGroup rfl rfl rfl rfl rfl

/-- C3: invocations qualified with one group's namespace dispatch only to
that group's handler — every handler that runs under the simple namespace is
the simple group's Create and never the complex group's Create of the same
name, and vice versa. -/
theorem namespace_dispatch_isolated
    (stub : Stub) (args : List String) :
    (∀ ns0 fn cd, TEvent.handlerRan ns0 fn cd ∈
        (invoke mainGroups stub simpleNS "Create" args).2 →
        ns0 = simpleNS ∧ fn = "Create") ∧
    (∀ ns0 fn cd, TEvent.handlerRan ns0 fn cd ∈
        (invoke mainGroups stub complexNS "Create" args).2 →
        ns0 = complexNS ∧ fn = "Create") ∧
    (∀ fn cd, TEvent.handlerRan complexNS fn cd ∉
        (invoke mainGroups stub simpleNS "Create" args).2) ∧
    (∀ fn cd, TEvent.handlerRan simpleNS fn cd ∉
        (invoke mainGroups stub complexNS "Create" args).2) := by
  have hns : simpleNS ≠ complexNS := by decide
  rcases hl : stub.live with _ | _ <;>
    rcases args with _ | ⟨a, _ | ⟨b, rest⟩⟩
  all_goals
    simp [invoke, find_simpleGroup, find_complexGroup, simpleGroup,
      complexGroup, dispatchStage, getAssetHook, hookArity, getAsset,
      getState, hl, marshalArgs, Except.map, simpleCreateH, simpleUpdateH,
      simpleReadH, complexCreateH, complexUpdateOwnerH, complexUpdateValueH,
      complexReadH, hns, Ne.symm hns]
  all_goals tauto

theorem namespace_dispatch_isolated_witness :
    TEvent.handlerRan complexNS "Create" none ∉
      (invoke mainGroups ⟨true, []⟩ simpleNS "Create" ["X"]).2 :=
  (namespace_dispatch_isolated ⟨true, []⟩ ["X"]).2.2.1 "Create" none

lemma validParamTail_iff (ps : List PKind) :
    validParamTail ps = true ↔
      ((∀ i : Nat, ps[i]? ≠ some .ctxP) ∧
       (∀ i : Nat, ps[i]? = some .strListP → i + 1 = ps.length)) := by
  induction ps with
  | nil => simp [validParamTail]
  | cons hd tl ih =>
    cases hd with
    | ctxP =>
      have hv : validParamTail (.ctxP :: tl) = false := by cases tl <;> rfl
      rw [hv]
      constructor
      · intro h; simp at h
      · rintro ⟨h1, h2⟩
        exact absurd (show (PKind.ctxP :: tl)[0]? = some PKind.ctxP by simp) (h1 0)
    | strP =>
      rw [show validParamTail (.strP :: tl) = validParamTail tl from by
        cases tl <;> rfl]
      rw [ih]
      constructor
      · rintro ⟨h1, h2⟩
        refine ⟨fun i => ?_, fun i hi => ?_⟩
        · cases i with
          | zero => simp
          | succ j => simpa using h1 j
        · cases i with
          | zero => simp at hi
          | succ j =>
            simp only [List.getElem?_cons_succ] at hi
            have := h2 j hi
            simp [List.length_cons]
            omega
      · rintro ⟨h1, h2⟩
        refine ⟨fun i => ?_, fun i hi => ?_⟩
        · simpa using h1 (i + 1)
        · have := h2 (i + 1) (by simpa using hi)
          simp [List.length_cons] at this
          omega
    | strListP =>
      cases tl with
      | nil =>
        simp only [validParamTail, true_iff]
        refine ⟨fun i => ?_, fun i hi => ?_⟩
        · cases i with
          | zero => simp
          | succ j => simp
        · cases i with
          | zero => simp
          | succ j => simp at hi
      | cons x xs =>
        simp only [validParamTail]
        constructor
        · intro h; cases h
        · rintro ⟨h1, h2⟩
          have := h2 0 (by simp)
          simp [List.length_cons] at this

lemma validParams_iff (ps : List PKind) :
    validParams ps = true ↔
      ((∀ i : Nat, ps[i]? = some .ctxP → i = 0) ∧
       (∀ i : Nat, ps[i]? = some .strListP → i + 1 = ps.length)) := by
  cases ps with
  | nil => simp [validParams, validParamTail]
  | cons hd tl =>
    cases hd with
    | ctxP =>
      have hv : validParams (.ctxP :: tl) = validParamTail tl := rfl
      rw [hv, validParamTail_iff]
      constructor
      · rintro ⟨h1, h2⟩
        refine ⟨fun i hi => ?_, fun i hi => ?_⟩
        · cases i with
          | zero => rfl
          | succ j => exact absurd (by simpa using hi) (h1 j)
        · cases i with
          | zero => simp at hi
          | succ j =>
            have := h2 j (by simpa using hi)
            simp only [List.length_cons]
            omega
      · rintro ⟨h1, h2⟩
        refine ⟨fun i hc => ?_, fun i hi => ?_⟩
        · have := h1 (i + 1) (by simpa using hc)
          omega
        · have := h2 (i + 1) (by simpa using hi)
          simp only [List.length_cons] at this
          omega
    | strP =>
      have hv : validParams (.strP :: tl) = validParamTail (.strP :: tl) := rfl
      rw [hv, validParamTail_iff]
      constructor
      · rintro ⟨h1, h2⟩
        exact ⟨fun i hi => absurd hi (h1 i), h2⟩
      · rintro ⟨h1, h2⟩
        refine ⟨fun i hc => ?_, h2⟩
        have h0 := h1 i hc
        subst h0
        simp at hc
    | strListP =>
      have hv : validParams (.strListP :: tl) = validParamTail (.strListP :: tl) := rfl
      rw [hv, validParamTail_iff]
      constructor
      · rintro ⟨h1, h2⟩
        exact ⟨fun i hi => absurd hi (h1 i), h2⟩
      · rintro ⟨h1, h2⟩
        refine ⟨fun i hc => ?_, h2⟩
        have h0 := h1 i hc
        subst h0
        simp at hc

lemma validReturns_iff (rs : List RKind) :
    validReturns rs = true ↔
      ((∀ i : Nat, rs[i]? = some .strR → i = 0) ∧
       (∀ i : Nat, rs[i]? = some .errR → i + 1 = rs.length)) := by
  rcases rs with _ | ⟨x, _ | ⟨y, _ | ⟨z, rest⟩⟩⟩
  · simp [validReturns]
  · cases x
    · constructor
      · intro _
        refine ⟨fun i hi => ?_, fun i hi => ?_⟩ <;>
          rcases i with _ | _ | i <;> simp_all
      · intro _; rfl
    · constructor
      · intro _
        refine ⟨fun i hi => ?_, fun i hi => ?_⟩ <;>
          rcases i with _ | _ | i <;> simp_all
      · intro _; rfl
  · cases x <;> cases y
    · constructor
      · intro h; simp [validReturns] at h
      · rintro ⟨h1, h2⟩
        have := h1 1 (by simp)
        omega
    · constructor
      · intro _
        refine ⟨fun i hi => ?_, fun i hi => ?_⟩ <;>
          rcases i with _ | _ | i <;> simp_all
      · intro _; rfl
    · constructor
      · intro h; simp [validReturns] at h
      · rintro ⟨h1, h2⟩
        have := h1 1 (by simp)
        omega
    · constructor
      · intro h; simp [validReturns] at h
      · rintro ⟨h1, h2⟩
        have := h2 0 (by simp)
        simp at this
  · constructor
    · intro h
      exact absurd h (by simp [validReturns])
    · rintro ⟨h1, h2⟩
      cases y with
      | strR =>
        have := h1 1 (by simp)
        omega
      | errR =>
        have := h2 1 (by simp)
        simp only [List.length_cons] at this
        omega

/-- C6: a handler shape is accepted by the registration-time signature
validator exactly when any context-type parameter sits first, any
string-sequence parameter sits last, any string return sits first and any
error return sits last (each hence occurring at most once); registration of
the two sample contract groups of multi-asset.go's main succeeds; and a
chaincode containing any handler with an invalid shape is rejected with a
RegistrationError at registration, before the router serves. -/
theorem signature_validation :
    (∀ ps : List PKind, ∀ rs : List RKind,
       validHandlerShape ps rs = true ↔
         ((∀ i : Nat, ps[i]? = some .ctxP → i = 0) ∧
          (∀ i : Nat, ps[i]? = some .strListP → i + 1 = ps.length) ∧
          (∀ i : Nat, rs[i]? = some .strR → i = 0) ∧
          (∀ i : Nat, rs[i]? = some .errR → i + 1 = rs.length))) ∧
    registerChaincode mainGroups = .ok () ∧
    (∀ gs (g : ContractGroup) (hd0 : Handler), g ∈ gs → hd0 ∈ g.handlers →
       validHandlerShape hd0.pshape hd0.rshape = false →
       ∃ e, registerChaincode gs = .error e) := by
  refine ⟨?_, rfl, ?_⟩
  · intro ps rs
    rw [validHandlerShape, Bool.and_eq_true, validParams_iff, validReturns_iff]
    tauto
  · intro gs g hd0 hg hh hbad
    rcases hdist : distinctNS (gs.map (fun g0 => g0.ns)) with _ | _
    · exact ⟨"RegistrationError: duplicate namespace",
        by simp [registerChaincode, hdist]⟩
    · have hnall : ¬(gs.all groupOk = true) := by
        intro hall
        have hg2 := (List.all_eq_true.mp hall) g hg
        simp only [groupOk, Bool.and_eq_true] at hg2
        have hcond := hg2.1.1.1
        have := (List.all_eq_true.mp hcond) hd0 hh
        rw [hbad] at this
        cases this
      have hfalse : gs.all groupOk = false := by
        cases hx : gs.all groupOk
        · rfl
        · exact absurd hx hnall
      exact ⟨"RegistrationError: illegal handler or hook shape",
        by simp [registerChaincode, hdist, hfalse]⟩

/-- A handler whose shape breaks the ordering rules (context-type parameter
not first), used to exhibit a rejected registration. -/
def badShapeHandler : Handler :=
  ⟨"X", [.strP, .ctxP], [], fun c _ => (c.stub, ⟨none, none⟩)⟩

/-- A contract group containing only `badShapeHandler`. -/
def badShapeGroup : ContractGroup :=
  ⟨"bad", [badShapeHandler], none, none, none⟩

theorem signature_validation_witness :
    ∃ e, registerChaincode [badShapeGroup] = .error e :=
  signature_validation.2.2 [badShapeGroup] badShapeGroup badShapeHandler
    (by simp) (by simp [badShapeGroup]) rfl

lemma unmarshal_empty_object_keeps_receiver :
    unmarshalCAInto ⟨"prev", 7⟩ (Bytes.raw "\x7b\x7d") = some ⟨"prev", 7⟩ := by
  decide

lemma unmarshal_raw_ca_json :
    unmarshalCAInto ⟨"", 0⟩ (Bytes.raw "\x7b\"owner\":\"x\",\"value\":1\x7d")
      = some ⟨"x", 1⟩ := by
  decide

lemma unmarshal_raw_text_fails :
    unmarshalCAInto ⟨"", 0⟩ (Bytes.raw "Initialised") = none ∧
    unmarshalCAInto ⟨"", 0⟩ (Bytes.raw "Updated") = none := by
  constructor <;> decide

